import Mathlib

/- Verification of the nodelens watch/debounce/restart core.

   Shallow embedding of the control core of src/watcher.js together with the
   pieces of src/commands.js and src/utils/logger.js it relies on.  JavaScript
   values that can come out of JSON.parse are modelled by the inductive JVal;
   strings are modelled by String / List Char; timers are modelled by an
   explicit state machine over discrete time (milliseconds as Nat). -/

/-- JSON-like JavaScript values.  A persisted nl.config.json parsed by
JSON.parse can only produce these shapes (never undefined, functions or
RegExp objects). -/
inductive JVal where
  | null
  | bool (b : Bool)
  | num (n : Int)
  | str (s : String)
  | arr (xs : List JVal)
  | obj (fields : List (String × JVal))

/-- JS falsiness: the values for which the guard `!v` is true
(null, false, 0, "" — NaN and undefined cannot come from JSON.parse). -/
def JVal.isFalsy : JVal → Bool
  | .null => true
  | .bool b => !b
  | .num n => n == 0
  | .str s => s == ""
  | .arr _ => false
  | .obj _ => false

/-- JS truthiness. -/
def JVal.isTruthy (v : JVal) : Bool := !v.isFalsy

/-- Property lookup on a JS object literal built by JSON.parse: with duplicate
keys the later occurrence wins. -/
def jlookup (fs : List (String × JVal)) (k : String) : Option JVal :=
  fs.foldl (fun acc kv => if kv.1 = k then some kv.2 else acc) none

/-- JS property access `v.k`: objects look the key up, every other shape
yields undefined (modelled as none; our keys are never numeric indices or
String/Array methods). -/
def jGetProp : JVal → String → Option JVal
  | .obj fs, k => jlookup fs k
  | _, _ => none

/-- Models String.prototype.trim on the character list: drop whitespace from
both ends. -/
def trimChars (l : List Char) : List Char :=
  ((l.dropWhile Char.isWhitespace).reverse.dropWhile Char.isWhitespace).reverse

/-- Models String.prototype.trim. -/
def jsTrim (s : String) : String := String.mk (trimChars s.data)

/-- Models String.prototype.toLowerCase (ASCII range, which covers every
runtime command keyword). -/
def jsToLower (s : String) : String := String.mk (s.data.map Char.toLower)

mutual

/-- Models the String(v) coercion (used by patternToRegExp on non-string
patterns): arrays stringify via Array.prototype.join with ",". -/
def jsToString : JVal → String
  | .null => "null"
  | .bool b => cond b "true" "false"
  | .num n => toString n
  | .str s => s
  | .arr xs => String.intercalate "," (jsToStrings xs)
  | .obj _ => "[object Object]"

/-- Array elements under join: null becomes the empty string, everything else
stringifies recursively. -/
def jsToStrings : List JVal → List String
  | [] => []
  | JVal.null :: vs => "" :: jsToStrings vs
  | v :: vs => jsToString v :: jsToStrings vs

end

/- ================ PATTERN MATCHER (watcher.js patternToRegExp) ================ -/

/-- One atom of the regex source produced by patternToRegExp's glob branch
(watcher.js lines 64-68): after escaping every regex metacharacter except `*`
and replacing `*` by `.*`, each source character denotes either a literal
character or `.*`; `any1` (the metacharacter `.`) additionally appears in the
raw-regex sources of the internal ignore entries ".nodelens" and
"nl.config.json". -/
inductive GItem where
  | lit (c : Char)
  | star
  | any1
deriving DecidableEq, Repr

/-- The glob branch of patternToRegExp: character-wise translation of the
escaped-then-substituted regex source (watcher.js lines 65-67). -/
def toItems (p : List Char) : List GItem :=
  p.map (fun c => if c = '*' then GItem.star else GItem.lit c)

/-- Tries a continuation at every suffix of the character list, in order:
the semantics of the greedy-with-backtracking `.*`, Boolean-equivalently,
and also of unanchored search. -/
def gStar (f : List Char → Bool) : List Char → Bool
  | [] => f []
  | x :: xs => f (x :: xs) || gStar f xs

/-- Anchored-at-the-left regex match: does the item sequence match some
prefix of the character list? -/
def gMatch : List GItem → List Char → Bool
  | [], _ => true
  | GItem.lit _ :: _, [] => false
  | GItem.lit c :: gs, x :: xs => c = x && gMatch gs xs
  | GItem.any1 :: _, [] => false
  | GItem.any1 :: gs, _ :: xs => gMatch gs xs
  | GItem.star :: gs, s => gStar (gMatch gs) s

/-- Unanchored regex match, i.e. RegExp.prototype.test: try every start
position. -/
def gSearch (items : List GItem) (s : List Char) : Bool := gStar (gMatch items) s

/-- Compiled form of a user pattern (watcher.js patternToRegExp, lines 58-76).
JSON configs cannot contain RegExp objects, so the instanceof branch is
unreachable here.  `nothing` is the regex /.^/ returned for blank patterns:
`.` consumes one character so `^` can never match, hence it matches no string.
`raw` is the no-`*` branch: the trimmed source handed to new RegExp (or, if
that compilation throws, its fully escaped literal form); its semantics is
external JS regex semantics, supplied to mtest as an oracle. -/
inductive Matcher where
  | nothing
  | glob (items : List GItem)
  | raw (src : String)

/-- patternToRegExp (watcher.js lines 58-76) on a JSON-derived pattern value:
String(pattern).trim(), blank gives the match-nothing regex, a string
containing `*` takes the glob branch, anything else the raw-regex branch. -/
def patternToRegExp (v : JVal) : Matcher :=
  let str := jsTrim (jsToString v)
  if str = "" then Matcher.nothing
  else if '*' ∈ str.data then Matcher.glob (toItems str.data)
  else Matcher.raw str

/-- RegExp.prototype.test for a compiled matcher.  The oracle supplies the
external JS regex semantics for the raw branch; glob matchers are fully
interpreted by gSearch. -/
def mtest (oracle : String → String → Bool) : Matcher → String → Bool
  | Matcher.nothing, _ => false
  | Matcher.glob items, s => gSearch items s.data
  | Matcher.raw src, s => oracle src s

/-- An oracle for raw regex sources that contain only literal characters and
the metacharacter `.` — which is the case for every raw source exercised by
the concrete witnesses below (e.g. the internal ignore entries ".nodelens"
and "nl.config.json"): `.` matches any one character, everything else is
literal, matching is unanchored. -/
def simpleRegexOracle (src : String) (s : String) : Bool :=
  gSearch (src.data.map (fun c => if c = '.' then GItem.any1 else GItem.lit c)) s.data

/-- The everywhere-false oracle (a legitimate instantiation for witnesses
whose patterns never reach the raw branch). -/
def falseOracle : String → String → Bool := fun _ _ => false

/-- The maximal run of non-`*` characters at the head of a pattern, together
with the rest (which is empty or starts with `*`).  Used to phrase the
specification side of the glob semantics. -/
def litRun : List Char → List Char × List Char
  | [] => ([], [])
  | c :: rest =>
    if c = '*' then ([], c :: rest)
    else
      let p := litRun rest
      (c :: p.1, p.2)

theorem litRun_snd_length (l : List Char) : (litRun l).2.length ≤ l.length := by
  induction l with
  | nil => simp [litRun]
  | cons c rest ih =>
    by_cases h : c = '*' <;> simp [litRun, h]
    omega

/-- The non-`*` segments of a pattern, in order: the maximal runs of literal
characters between the stars. -/
def starSegs (l : List Char) : List (List Char) :=
  match l with
  | [] => []
  | c :: rest =>
    if c = '*' then starSegs rest
    else (c :: (litRun rest).1) :: starSegs (litRun rest).2
termination_by l.length
decreasing_by
  · simp only [List.length_cons]; omega
  · simp only [List.length_cons]
    exact Nat.lt_succ_of_le (litRun_snd_length _)

/-- Specification-side matching, read off the claim: the given segments occur
in the string in order, separated (and surrounded) by arbitrary substrings —
in particular nothing stops a separating substring from containing '/'. -/
def InOrder : List (List Char) → List Char → Prop
  | [], _ => True
  | seg :: rest, s => ∃ u v, s = u ++ seg ++ v ∧ InOrder rest v

/- ================ EFFECTIVE CONFIG (commands.js / watcher.js) ================ -/

/-- The resolved configuration record.  Fields keep the raw JS values: the
spread merge in buildEffectiveConfig performs no validation, so any JSON
shape can sit in any field. -/
structure EffConfig where
  watch : JVal
  ignore : JVal
  debounceDelay : JVal
  restartDelay : JVal
  logLabel : JVal
  logTimestamp : JVal
  silentLogs : JVal
  saveLogs : JVal

/-- DEFAULT_CONFIG from commands.js lines 20-29. -/
def DEFAULT_CONFIG : EffConfig :=
  { watch := JVal.str "all"
  , ignore := JVal.arr [JVal.str "node_modules", JVal.str ".git", JVal.str "dist",
      JVal.str "build", JVal.str "temp", JVal.str "logs"]
  , debounceDelay := JVal.num 225
  , restartDelay := JVal.num 0
  , logLabel := JVal.bool true
  , logTimestamp := JVal.bool false
  , silentLogs := JVal.bool false
  , saveLogs := JVal.bool false }

/-- The spread merge { ...DEFAULT_CONFIG, ...rawConfig } restricted to the
fields of the effective configuration: a key present in the document wins
verbatim, an absent key keeps the default. -/
def mergeFields (fs : List (String × JVal)) : EffConfig :=
  { watch := (jlookup fs "watch").getD DEFAULT_CONFIG.watch
  , ignore := (jlookup fs "ignore").getD DEFAULT_CONFIG.ignore
  , debounceDelay := (jlookup fs "debounceDelay").getD DEFAULT_CONFIG.debounceDelay
  , restartDelay := (jlookup fs "restartDelay").getD DEFAULT_CONFIG.restartDelay
  , logLabel := (jlookup fs "logLabel").getD DEFAULT_CONFIG.logLabel
  , logTimestamp := (jlookup fs "logTimestamp").getD DEFAULT_CONFIG.logTimestamp
  , silentLogs := (jlookup fs "silentLogs").getD DEFAULT_CONFIG.silentLogs
  , saveLogs := (jlookup fs "saveLogs").getD DEFAULT_CONFIG.saveLogs }

/-- buildEffectiveConfig (watcher.js lines 79-88).  A falsy or non-object
document yields a fresh copy of the defaults; an object is spread over the
defaults.  A JSON array has typeof "object" and is truthy but only
contributes numeric string keys, which never collide with the config field
names, so for the fields of EffConfig it behaves like the default copy. -/
def buildEffectiveConfig : JVal → EffConfig
  | JVal.obj fs => mergeFields fs
  | _ => DEFAULT_CONFIG

/-- The use-site sanitization of the debounce delay (watcher.js lines 98-101):
a value that is not a nonnegative number falls back to the default. -/
def effDebounceMs (cfg : EffConfig) : Int :=
  match cfg.debounceDelay with
  | JVal.num n => if 0 ≤ n then n else 225
  | _ => 225

/-- The use-site sanitization of the restart delay (watcher.js lines 103-106). -/
def effRestartMs (cfg : EffConfig) : Int :=
  match cfg.restartDelay with
  | JVal.num n => if 0 ≤ n then n else 0
  | _ => 0

/-- Strict equality test `watch === "all"` on a JSON value. -/
def isStrAll : JVal → Bool
  | JVal.str s => s = "all"
  | _ => false

/-- The ignore matcher list (watcher.js lines 108-110): the user ignore value
(wrapped in a singleton list when it is not an array) followed by the
unconditional internal entries, each compiled by patternToRegExp. -/
def mkIgnoreRegexes (ignore : JVal) : List Matcher :=
  ((match ignore with
    | JVal.arr xs => xs
    | v => [v]) ++ [JVal.str ".nodelens", JVal.str "nl.config.json"]).map patternToRegExp

/-- The watch matcher list (watcher.js lines 112-117): none exactly for the
sentinel string "all"; otherwise an array is compiled element-wise and any
other value is compiled as a singleton. -/
def mkWatchRegexes (watch : JVal) : Option (List Matcher) :=
  if isStrAll watch then none
  else
    match watch with
    | JVal.arr xs => some (xs.map patternToRegExp)
    | v => some [patternToRegExp v]

/-- The two filtering early-returns of the project watcher's event handler
(watcher.js lines 128-131): any ignore match rejects; with a watch list
present, no watch match rejects; the sentinel "all" (watchRegexes null)
accepts everything not ignored. -/
def passesFilters (oracle : String → String → Bool) (ign : List Matcher)
    (wat : Option (List Matcher)) (rel : String) : Bool :=
  if ign.any (fun re => mtest oracle re rel) then false
  else
    match wat with
    | some ws => ws.any (fun re => mtest oracle re rel)
    | none => true

/- ================ RESTART DEBOUNCER (watcher.js lines 142-162) ================ -/

/-- State of the restart-timer machinery of the project watcher, over discrete
time in milliseconds.  setTimeout handles are modelled by numeric ids:
`armed` holds the debounce timers that are armed and neither fired nor
cancelled, as (id, deadline) pairs in arming order; `restarts` holds the
deadlines of the inner one-shot setTimeout(doRestart, restartDelayMs) calls,
whose handles the code never stores, so nothing can ever cancel them;
`handle` is the restartTimer variable (none = null — note the code nulls it
only inside doRestart, so while the extra restart delay is pending it still
points at the already-fired debounce timer); `debFired` records the times at
which a debounce timer fired, `fired` the times at which the restart action
(kill + respawn) actually executed, `notices` counts the
"Change in ... Restarting..." info notices. -/
structure DebState where
  armed : List (Nat × Nat)
  restarts : List Nat
  handle : Option Nat
  nextId : Nat
  debFired : List Nat
  fired : List Nat
  notices : Nat
deriving DecidableEq, Repr

/-- Let the clock advance to instant t: every armed debounce timer whose
deadline has passed fires (with restartDelayMs = r > 0 it schedules the
restart action r later, otherwise doRestart runs at once and nulls the
restartTimer variable), and every scheduled restart whose deadline has
passed executes doRestart (which nulls the restartTimer variable). -/
def advance (r t : Nat) (s : DebState) : DebState :=
  let due := s.armed.filter (fun p => p.2 ≤ t)
  let rem := s.armed.filter (fun p => t < p.2)
  let s1 : DebState :=
    { s with
      armed := rem
      debFired := s.debFired ++ due.map (fun p => p.2)
      restarts := if 0 < r then s.restarts ++ due.map (fun p => p.2 + r) else s.restarts
      fired := if 0 < r then s.fired else s.fired ++ due.map (fun p => p.2)
      handle := if r = 0 ∧ due ≠ [] then none else s.handle }
  let dueR := s1.restarts.filter (fun x => x ≤ t)
  let remR := s1.restarts.filter (fun x => t < x)
  { s1 with
    restarts := remR
    fired := s1.fired ++ dueR
    handle := if dueR ≠ [] then none else s1.handle }

/-- An accepted change event reaching the debounce block (watcher.js lines
142-162) at instant t: after the clock catches up, the handler logs the
one-per-burst notice exactly when restartTimer is null, clears the timer the
restartTimer variable currently refers to (a no-op if that timer already
fired), and arms a fresh debounce timer with the full delay d. -/
def onEvent (d r t : Nat) (s : DebState) : DebState :=
  let s1 := advance r t s
  { armed := (match s1.handle with
      | some id => s1.armed.filter (fun p => p.1 ≠ id)
      | none => s1.armed) ++ [(s1.nextId, t + d)]
  , restarts := s1.restarts
  , handle := some s1.nextId
  , nextId := s1.nextId + 1
  , debFired := s1.debFired
  , fired := s1.fired
  , notices := if s1.handle = none then s1.notices + 1 else s1.notices }

/-- End of observation: let every remaining timer fire and every scheduled
restart execute. -/
def flush (r : Nat) (s : DebState) : DebState :=
  let due := s.armed
  let s1 : DebState :=
    { s with
      armed := []
      debFired := s.debFired ++ due.map (fun p => p.2)
      restarts := if 0 < r then s.restarts ++ due.map (fun p => p.2 + r) else s.restarts
      fired := if 0 < r then s.fired else s.fired ++ due.map (fun p => p.2)
      handle := if r = 0 ∧ due ≠ [] then none else s.handle }
  { s1 with
    restarts := []
    fired := s1.fired ++ s1.restarts
    handle := if s1.restarts ≠ [] then none else s1.handle }

/-- The debouncer before any event: no timers, restartTimer null. -/
def initState : DebState := ⟨[], [], none, 0, [], [], 0⟩

/-- A whole observed run: accepted change events at the given instants hit
the debounce block, then the clock runs to completion. -/
def runEvents (d r : Nat) (events : List Nat) : DebState :=
  flush r (events.foldl (fun s t => onEvent d r t s) initState)

/- ================ PROJECT WATCHER EVENT HANDLER (watcher.js 124-163) ================ -/

/-- The event kinds chokidar's "all" listener receives. -/
inductive EvKind where
  | add
  | addDir
  | change
  | unlink
  | unlinkDir
deriving DecidableEq, Repr

/-- toForwardSlashes (watcher.js lines 53-55): every backslash becomes a
forward slash. -/
def toForwardSlashes (p : String) : String :=
  String.mk (p.data.map (fun c => if c = '\\' then '/' else c))

/-- Project watcher state: the debouncer plus the lastChange record
(file, event kind, timestamp) — initially nulls, overwritten only as below. -/
structure PWState where
  deb : DebState
  lastChange : Option (String × EvKind × Nat)
deriving DecidableEq, Repr

/-- The watcher.on("all") handler (watcher.js lines 124-163).  rawRel stands
for the output of path.relative(projectRoot, filePath) (the path module is an
external collaborator).  The handler normalizes it to forward slashes,
rejects the empty (root-level) path, applies the ignore then watch filters
(the two early returns are passesFilters), records the change when the kind
is add/change/unlink, and feeds every accepted event — whatever its kind —
to the restart debounce block. -/
def handleFsEvent (oracle : String → String → Bool) (ign : List Matcher)
    (wat : Option (List Matcher)) (d r : Nat) (k : EvKind) (rawRel : String)
    (t : Nat) (s : PWState) : PWState :=
  let rel := toForwardSlashes rawRel
  if rel = "" then s
  else if !(passesFilters oracle ign wat rel) then s
  else
    let s1 :=
      if k = EvKind.add ∨ k = EvKind.change ∨ k = EvKind.unlink then
        { s with lastChange := some (rel, k, t) }
      else s
    { s1 with deb := onEvent d r t s1.deb }

/- ================ LOGGER (src/utils/logger.js) ================ -/

/-- The logger module state (logger.js lines 20-24): display style flags and
the optional log file path. -/
structure LoggerState where
  logLabel : Bool
  logTimestamp : Bool
  silentLogs : Bool
  logFilePath : Option String
deriving DecidableEq, Repr

/-- The four log levels. -/
inductive LogLevel where
  | error
  | warn
  | info
  | success
deriving DecidableEq, Repr

/-- The [LABEL] text of a level. -/
def labelOf : LogLevel → String
  | LogLevel.error => "ERROR"
  | LogLevel.warn => "WARN"
  | LogLevel.info => "INFO"
  | LogLevel.success => "SUCCESS"

/-- The ANSI color prefix of a level (logger.js COLORS). -/
def colorOf : LogLevel → String
  | LogLevel.error => "\x1b[31m"
  | LogLevel.warn => "\x1b[33m"
  | LogLevel.info => "\x1b[36m"
  | LogLevel.success => "\x1b[32m"

/-- shouldPrint (logger.js lines 80-85): in silent mode only ERROR and WARN
reach the console. -/
def shouldPrint (silent : Bool) (label : String) : Bool :=
  if silent then
    if label = "ERROR" then true else if label = "WARN" then true else false
  else true

/-- Consume the body of an ANSI escape after "\x1b[": a run of digits and
semicolons that must be closed by 'm'; returns the rest on a match. -/
def ansiBody : List Char → Option (List Char)
  | [] => none
  | c :: rest =>
    if c = 'm' then some rest
    else if c.isDigit ∨ c = ';' then ansiBody rest
    else none

theorem ansiBody_length (l : List Char) :
    ∀ r, ansiBody l = some r → r.length ≤ l.length := by
  induction l with
  | nil => intro r h; simp [ansiBody] at h
  | cons c rest ih =>
    intro r h
    rw [ansiBody] at h
    by_cases hm : c = 'm'
    · rw [if_pos hm] at h
      cases h
      simp
    · rw [if_neg hm] at h
      by_cases hd : c.isDigit ∨ c = ';'
      · rw [if_pos hd] at h
        have := ih r h
        simp only [List.length_cons]
        omega
      · rw [if_neg hd] at h
        cases h

/-- The global replace of /\x1b\[[0-9;]*m/ with "" (logger.js line 27 and
106): delete every ANSI color sequence, scanning left to right; where the
regex does not match, the scan keeps the character and moves one position
right, exactly like String.prototype.replace with a global regex. -/
def stripAnsi (l : List Char) : List Char :=
  match l with
  | [] => []
  | '\x1b' :: '[' :: rest2 =>
    match h : ansiBody rest2 with
    | some rest3 => stripAnsi rest3
    | none => '\x1b' :: stripAnsi ('[' :: rest2)
  | c :: rest => c :: stripAnsi rest
termination_by l.length
decreasing_by
  · simp only [List.length_cons]
    have := ansiBody_length _ _ h
    omega
  · simp only [List.length_cons]; omega
  · simp only [List.length_cons]; omega

/-- format (logger.js lines 88-92), with the wall-clock timestamp passed in. -/
def formatMsg (st : LoggerState) (ts : String) (prefixColor label msg : String) : String :=
  "NL " ++ (if st.logTimestamp then "[" ++ ts ++ "] " else "")
    ++ prefixColor ++ (if st.logLabel then "[" ++ label ++ "] " else "")
    ++ "\x1b[0m" ++ msg

/-- formatForFile (logger.js lines 95-99): timestamp and label are always
present in the file. -/
def formatForFile (ts label msg : String) : String :=
  "NL " ++ "[" ++ ts ++ "] " ++ "[" ++ label ++ "] " ++ msg

/-- writeToFile (logger.js lines 102-111): nothing without a log file path,
otherwise the ANSI-stripped file line plus a newline is appended.  The
try/catch around the append is an external I/O concern; a failed append only
prints to stderr and never affects logger state. -/
def writeToFile (st : LoggerState) (ts label msg : String) : List String :=
  match st.logFilePath with
  | none => []
  | some _ => [String.mk (stripAnsi (formatForFile ts label msg).data) ++ "\n"]

/-- What one logging call emits: console lines and file-appended lines. -/
structure LogOutput where
  console : List String
  file : List String
deriving DecidableEq, Repr

/-- log.error / log.warn / log.info / log.success (logger.js lines 115-142):
the file write happens first, unconditionally; the console print is guarded
by shouldPrint. -/
def logEmit (st : LoggerState) (lv : LogLevel) (ts msg : String) : LogOutput :=
  let fileLines := writeToFile st ts (labelOf lv) msg
  if shouldPrint st.silentLogs (labelOf lv) then
    { console := [formatMsg st ts (colorOf lv) (labelOf lv) msg], file := fileLines }
  else
    { console := [], file := fileLines }

/-- The separator line (logger.js line 147). -/
def sepLine : String := "─────────────────────────"

/-- log.separator (logger.js lines 145-157): in silent mode it returns before
printing OR writing; otherwise it prints and, when a log file is set, appends
the same line. -/
def separatorEmit (st : LoggerState) : LogOutput :=
  if shouldPrint st.silentLogs "INFO" then
    { console := [sepLine]
    , file := match st.logFilePath with
              | some _ => [sepLine ++ "\n"]
              | none => [] }
  else { console := [], file := [] }

/-- setLogStyle (logger.js lines 50-75) on an options object: each style flag
is updated only when the corresponding property is exactly a boolean; a
boolean saveLogs switches the log file path on (under cwd/.nodelens) or off. -/
def setLogStyle (cwd : String) (opts : JVal) (st : LoggerState) : LoggerState :=
  let st1 := match jGetProp opts "logLabel" with
    | some (JVal.bool b) => { st with logLabel := b }
    | _ => st
  let st2 := match jGetProp opts "logTimestamp" with
    | some (JVal.bool b) => { st1 with logTimestamp := b }
    | _ => st1
  let st3 := match jGetProp opts "silentLogs" with
    | some (JVal.bool b) => { st2 with silentLogs := b }
    | _ => st2
  match jGetProp opts "saveLogs" with
  | some (JVal.bool b) =>
    if b then { st3 with logFilePath := some (cwd ++ "/.nodelens/nodelens.txt") }
    else { st3 with logFilePath := none }
  | _ => st3

/- ================ CONFIG LOAD & RELOAD (commands.js loadConfig, watcher.js createConfigWatcher) ================ -/

/-- What the persisted nl.config.json looks like to loadConfig:
none = the file does not exist; some none = it exists but JSON.parse throws
(unreadable / invalid JSON); some (some v) = it parses to the value v. -/
abbrev LoadSrc : Type := Option (Option JVal)

/-- One style field as validated inside loadConfig (commands.js lines
114-131): the property if it is exactly a boolean, the default otherwise. -/
def validateStyleField (cfg : JVal) (k : String) (dflt : JVal) : JVal :=
  match jGetProp cfg k with
  | some (JVal.bool b) => JVal.bool b
  | _ => dflt

/-- loadConfig (commands.js lines 104-138): missing file or a parse failure
yield null (the parse failure also emits log.error, an output not tracked in
LoggerState); a successful parse applies the validated style options to the
logger and returns the parsed document. -/
def loadConfigM (cwd : String) (src : LoadSrc) (st : LoggerState) :
    Option JVal × LoggerState :=
  match src with
  | none => (none, st)
  | some none => (none, st)
  | some (some v) =>
    (some v,
     setLogStyle cwd (JVal.obj
       [("logLabel", validateStyleField v "logLabel" DEFAULT_CONFIG.logLabel),
        ("logTimestamp", validateStyleField v "logTimestamp" DEFAULT_CONFIG.logTimestamp),
        ("silentLogs", validateStyleField v "silentLogs" DEFAULT_CONFIG.silentLogs),
        ("saveLogs", validateStyleField v "saveLogs" DEFAULT_CONFIG.saveLogs)]) st)

/-- The effective configuration as the watcher holds it: the merged fields
plus the derived logFile property (watcher.js lines 206-208 / 236-238). -/
structure FullConfig where
  base : EffConfig
  logFile : Option String

/-- The mutable module-level state of watcher.js that the config-reload path
and the runtime console touch: the current effective config, the manual
silent override, the logger state, and counters for the warn notices and the
successful reloads (each successful reload also invokes onConfigUpdate,
which rebuilds the project watcher). -/
structure WatchCtl where
  effectiveConfig : FullConfig
  silentOverride : Option Bool
  logger : LoggerState
  warns : Nat
  reloads : Nat

/-- The effective config viewed as the JS object handed to setLogStyle. -/
def effConfigToJVal (c : EffConfig) : JVal :=
  JVal.obj
    [("watch", c.watch), ("ignore", c.ignore),
     ("debounceDelay", c.debounceDelay), ("restartDelay", c.restartDelay),
     ("logLabel", c.logLabel), ("logTimestamp", c.logTimestamp),
     ("silentLogs", c.silentLogs), ("saveLogs", c.saveLogs)]

/-- The body of the debounced config-change timer (watcher.js lines 189-215):
reload the persisted config; if loadConfig returned null — or a falsy parsed
value — warn and keep everything; otherwise rebuild the effective config
from defaults and the new document, re-apply a manual silent override,
recompute logFile from saveLogs, apply the log style and install the new
config (onConfigUpdate is invoked, counted by reloads). -/
def onConfigFire (cwd projectRoot : String) (src : LoadSrc) (s : WatchCtl) : WatchCtl :=
  let res := loadConfigM cwd src s.logger
  match res.1 with
  | none => { s with logger := res.2, warns := s.warns + 1 }
  | some raw =>
    if raw.isFalsy then { s with logger := res.2, warns := s.warns + 1 }
    else
      let ne0 := buildEffectiveConfig raw
      let ne := match s.silentOverride with
        | some b => { ne0 with silentLogs := JVal.bool b }
        | none => ne0
      let lf := if ne.saveLogs.isTruthy
                then some (projectRoot ++ "/.nodelens/nodelens.txt")
                else none
      let lg2 := setLogStyle cwd (effConfigToJVal ne) res.2
      { s with effectiveConfig := ⟨ne, lf⟩, logger := lg2, reloads := s.reloads + 1 }

/- ================ RUNTIME CONSOLE (watcher.js lines 269-408) ================ -/

/-- Splits on runs of whitespace, as cmd.split(/\s+/) does on a string with
no leading whitespace (cmd is trimmed); cur accumulates the characters of
the token currently being read, in reverse. -/
def wsSplitAux (cur : List Char) : List Char → List (List Char)
  | [] => if cur = [] then [] else [cur.reverse]
  | c :: rest =>
    if c.isWhitespace then
      if cur = [] then wsSplitAux [] rest
      else cur.reverse :: wsSplitAux [] rest
    else wsSplitAux (c :: cur) rest

/-- The whitespace-separated tokens of a character list. -/
def wsSplit (l : List Char) : List (List Char) := wsSplitAux [] l

/-- Character-list test: does s start with pre?  Models
String.prototype.startsWith. -/
def strStarts (s pre : List Char) : Bool :=
  match pre, s with
  | [], _ => true
  | _ :: _, [] => false
  | a :: as, b :: bs => a = b && strStarts bs as

/-- What one console input line resolves to in the rl.on("line") handler
(watcher.js lines 269-408), in source order of the checks.  silent carries
parts[1] of cmd.split(/\s+/). -/
inductive ConsoleAction where
  | ignored
  | clear
  | help
  | status
  | lastChange
  | silent (arg : Option String)
  | restart
  | stop
  | unknown (line : String)
deriving DecidableEq, Repr

/-- The command dispatch of the rl.on("line") handler: trim, drop empty
lines, lowercase, then the if-chain of watcher.js lines 277-407; every line
whose lowercased form merely starts with "silent" reaches the silent branch. -/
def handleLine (input : String) : ConsoleAction :=
  let line := jsTrim input
  if line = "" then ConsoleAction.ignored
  else
    let cmd := jsToLower line
    if cmd = "clear" ∨ cmd = "cls" then ConsoleAction.clear
    else if cmd = "help" ∨ cmd = "h" ∨ cmd = "?" then ConsoleAction.help
    else if cmd = "status" ∨ cmd = "stats" then ConsoleAction.status
    else if cmd = "last-change" ∨ cmd = "lc" then ConsoleAction.lastChange
    else if strStarts cmd.data "silent".data then
      ConsoleAction.silent (((wsSplit cmd.data).get? 1).map String.mk)
    else if cmd = "rs" then ConsoleAction.restart
    else if cmd = "stop" ∨ cmd = "x" then ConsoleAction.stop
    else ConsoleAction.unknown line

/-- The silent command handler (watcher.js lines 339-375): "silent on" and
"silent off" act only when they change something, and only then set the
manual override; any other argument (or none) toggles, always setting the
override; every acting branch re-applies the log style from the updated
effective config. -/
def silentCommand (cwd : String) (arg : Option String) (s : WatchCtl) : WatchCtl :=
  if arg = some "on" then
    if s.effectiveConfig.base.silentLogs.isTruthy then s
    else
      let ne := { s.effectiveConfig.base with silentLogs := JVal.bool true }
      { s with effectiveConfig := { s.effectiveConfig with base := ne }
             , silentOverride := some true
             , logger := setLogStyle cwd (effConfigToJVal ne) s.logger }
  else if arg = some "off" then
    if s.effectiveConfig.base.silentLogs.isTruthy then
      let ne := { s.effectiveConfig.base with silentLogs := JVal.bool false }
      { s with effectiveConfig := { s.effectiveConfig with base := ne }
             , silentOverride := some false
             , logger := setLogStyle cwd (effConfigToJVal ne) s.logger }
    else s
  else
    let b := s.effectiveConfig.base.silentLogs.isFalsy
    let ne := { s.effectiveConfig.base with silentLogs := JVal.bool b }
    { s with effectiveConfig := { s.effectiveConfig with base := ne }
           , silentOverride := some b
           , logger := setLogStyle cwd (effConfigToJVal ne) s.logger }

/- ================ LEMMAS: glob semantics (C2) ================ -/

theorem gStar_iff (f : List Char → Bool) (s : List Char) :
    gStar f s = true ↔ ∃ s', s' <:+ s ∧ f s' = true := by
  induction s with
  | nil =>
    simp only [gStar, List.suffix_nil]
    constructor
    · intro h; exact ⟨[], rfl, h⟩
    · rintro ⟨s', rfl, h⟩; exact h
  | cons x xs ih =>
    simp only [gStar, Bool.or_eq_true, ih]
    constructor
    · rintro (h | ⟨s', hs, hf⟩)
      · exact ⟨x :: xs, List.suffix_refl _, h⟩
      · exact ⟨s', List.suffix_cons_iff.mpr (Or.inr hs), hf⟩
    · rintro ⟨s', hs, hf⟩
      rcases List.suffix_cons_iff.mp hs with h | h
      · subst h; exact Or.inl hf
      · exact Or.inr ⟨s', h, hf⟩

theorem gMatch_nil_items (s : List Char) : gMatch [] s = true := by
  cases s <;> rfl

theorem gSearch_nil_items (s : List Char) : gSearch [] s = true := by
  exact (gStar_iff _ s).mpr ⟨s, List.suffix_refl s, gMatch_nil_items s⟩

theorem gSearch_star_cons (I : List GItem) (s : List Char) :
    gSearch (GItem.star :: I) s = true ↔ gSearch I s = true := by
  show gStar (gMatch (GItem.star :: I)) s = true ↔ gStar (gMatch I) s = true
  rw [gStar_iff, gStar_iff]
  constructor
  · rintro ⟨s', hs, hm⟩
    have : gStar (gMatch I) s' = true := hm
    rcases (gStar_iff _ s').mp this with ⟨s'', hs', hm'⟩
    exact ⟨s'', hs'.trans hs, hm'⟩
  · rintro ⟨s', hs, hm⟩
    refine ⟨s', hs, ?_⟩
    show gStar (gMatch I) s' = true
    exact (gStar_iff _ s').mpr ⟨s', List.suffix_refl _, hm⟩

theorem gMatch_lits_append (run : List Char) (I : List GItem) :
    ∀ s, gMatch (run.map GItem.lit ++ I) s = true ↔
      ∃ v, s = run ++ v ∧ gMatch I v = true := by
  induction run with
  | nil =>
    intro s
    simp only [List.map_nil, List.nil_append]
    constructor
    · intro h; exact ⟨s, rfl, h⟩
    · rintro ⟨v, rfl, h⟩; exact h
  | cons c run' ih =>
    intro s
    cases s with
    | nil =>
      constructor
      · intro h; exact absurd h (by simp [gMatch])
      · rintro ⟨v, hv, _⟩; exact absurd hv (by simp)
    | cons x xs =>
      have hg : gMatch ((c :: run').map GItem.lit ++ I) (x :: xs)
          = (decide (c = x) && gMatch (run'.map GItem.lit ++ I) xs) := rfl
      rw [hg]
      constructor
      · intro h
        have h' : c = x ∧ gMatch (run'.map GItem.lit ++ I) xs = true := by
          simpa using h
        rcases h' with ⟨hcx, hrest⟩
        rcases (ih xs).mp hrest with ⟨v, hxs, hI⟩
        subst hcx
        exact ⟨v, by simp [hxs], hI⟩
      · rintro ⟨v, hv, hI⟩
        rw [List.cons_append] at hv
        injection hv with h1 h2
        subst h1
        have hrest : gMatch (run'.map GItem.lit ++ I) xs = true :=
          (ih xs).mpr ⟨v, h2, hI⟩
        simp [hrest]

theorem litRun_append (l : List Char) : (litRun l).1 ++ (litRun l).2 = l := by
  induction l with
  | nil => rfl
  | cons c rest ih =>
    by_cases h : c = '*' <;> simp [litRun, h, ih]

theorem toItems_litRun_fst (l : List Char) :
    toItems (litRun l).1 = ((litRun l).1).map GItem.lit := by
  induction l with
  | nil => rfl
  | cons c rest ih =>
    by_cases h : c = '*'
    · simp [litRun, h, toItems]
    · simp [litRun, h, toItems] at ih ⊢
      exact ih

theorem litRun_snd_shape (l : List Char) :
    (litRun l).2 = [] ∨ ∃ rest, (litRun l).2 = '*' :: rest := by
  induction l with
  | nil => exact Or.inl rfl
  | cons c rest ih =>
    by_cases h : c = '*'
    · exact Or.inr ⟨rest, by simp [litRun, h]⟩
    · simpa [litRun, h] using ih

theorem gSearch_iff (I : List GItem) (s : List Char) :
    gSearch I s = true ↔ ∃ s', s' <:+ s ∧ gMatch I s' = true :=
  gStar_iff (gMatch I) s

theorem gSearch_lits_iff (run : List Char) (J : List GItem) (s : List Char) :
    gSearch (run.map GItem.lit ++ J) s = true ↔
      ∃ u v, s = u ++ run ++ v ∧ gMatch J v = true := by
  rw [gSearch_iff]
  constructor
  · rintro ⟨s', hs, hm⟩
    rcases (gMatch_lits_append run J s').mp hm with ⟨v, rfl, hJ⟩
    rcases hs with ⟨u, rfl⟩
    exact ⟨u, v, by simp, hJ⟩
  · rintro ⟨u, v, rfl, hJ⟩
    exact ⟨run ++ v, ⟨u, by simp⟩, (gMatch_lits_append run J _).mpr ⟨v, rfl, hJ⟩⟩

theorem gSearch_toItems_iff :
    ∀ (n : Nat) (p s : List Char), p.length ≤ n →
      (gSearch (toItems p) s = true ↔ InOrder (starSegs p) s) := by
  intro n
  induction n with
  | zero =>
    intro p s hp
    have hp0 : p = [] := List.length_eq_zero.mp (Nat.le_zero.mp hp)
    subst hp0
    simp [toItems, starSegs, InOrder, gSearch_nil_items]
  | succ n ih =>
    intro p s hp
    cases p with
    | nil => simp [toItems, starSegs, InOrder, gSearch_nil_items]
    | cons c rest =>
      have hrest : rest.length ≤ n := by
        simpa using Nat.le_of_succ_le_succ (by simpa using hp)
      by_cases hc : c = '*'
      · subst hc
        have h1 : toItems ('*' :: rest) = GItem.star :: toItems rest := by
          simp [toItems]
        have h2 : starSegs ('*' :: rest) = starSegs rest := by
          rw [starSegs]; simp
        rw [h1, h2, gSearch_star_cons]
        exact ih rest s hrest
      · have hsplit := litRun_append rest
        have h2 : starSegs (c :: rest) = (c :: (litRun rest).1) :: starSegs (litRun rest).2 := by
          rw [starSegs]; simp [hc]
        have h1 : toItems (c :: rest)
            = (c :: (litRun rest).1).map GItem.lit ++ toItems (litRun rest).2 := by
          calc toItems (c :: rest) = GItem.lit c :: toItems rest := by simp [toItems, hc]
            _ = GItem.lit c :: toItems ((litRun rest).1 ++ (litRun rest).2) := by rw [hsplit]
            _ = GItem.lit c :: (toItems (litRun rest).1 ++ toItems (litRun rest).2) := by
                simp [toItems, List.map_append]
            _ = (c :: (litRun rest).1).map GItem.lit ++ toItems (litRun rest).2 := by
                rw [toItems_litRun_fst]; simp
        rw [h1, h2]
        have hblen : (litRun rest).2.length ≤ rest.length := litRun_snd_length rest
        rcases litRun_snd_shape rest with hb | ⟨b', hb⟩
        · rw [hb]
          rw [gSearch_lits_iff]
          have hseg0 : starSegs ([] : List Char) = [] := by rw [starSegs]
          rw [hseg0]
          simp only [InOrder]
          constructor
          · rintro ⟨u, v, rfl, -⟩
            exact ⟨u, v, rfl, trivial⟩
          · rintro ⟨u, v, rfl, -⟩
            exact ⟨u, v, rfl, gMatch_nil_items v⟩
        · rw [hb]
          have hb'len : b'.length ≤ n := by
            rw [hb] at hblen
            simp only [List.length_cons] at hblen
            omega
          have hitems : toItems ('*' :: b') = GItem.star :: toItems b' := by simp [toItems]
          have hstar : starSegs ('*' :: b') = starSegs b' := by rw [starSegs]; simp
          rw [hitems, hstar, gSearch_lits_iff]
          simp only [InOrder]
          constructor
          · rintro ⟨u, v, rfl, hm⟩
            have hv : gSearch (toItems b') v = true := hm
            exact ⟨u, v, rfl, (ih b' v hb'len).mp hv⟩
          · rintro ⟨u, v, rfl, hio⟩
            refine ⟨u, v, rfl, ?_⟩
            show gSearch (toItems b') v = true
            exact (ih b' v hb'len).mpr hio

/-- C2: for a string pattern containing at least one `*` (the trimmed form is
what the code tests and compiles), patternToRegExp yields exactly the glob
regex — every non-`*` character made literal by the escaping, every `*`
turned into `.*`, compiled unanchored — and testing it against a path holds
exactly when the non-`*` segments of the pattern appear in the path in order,
separated by arbitrary substrings; the final conjunct exhibits `*` matching
across a `/`. -/
theorem c2_glob_semantics (oracle : String → String → Bool) (p : String)
    (h : '*' ∈ (jsTrim p).data) :
    patternToRegExp (JVal.str p) = Matcher.glob (toItems (jsTrim p).data)
    ∧ (∀ path : String,
        mtest oracle (patternToRegExp (JVal.str p)) path = true ↔
          InOrder (starSegs (jsTrim p).data) path.data)
    ∧ mtest oracle (patternToRegExp (JVal.str "src/*.js")) "src/a/b.js" = true := by
  have hne : jsTrim p ≠ "" := by
    intro he
    rw [he] at h
    exact absurd h (by decide)
  have h1 : patternToRegExp (JVal.str p) = Matcher.glob (toItems (jsTrim p).data) := by
    show (if jsTrim p = "" then Matcher.nothing
          else if '*' ∈ (jsTrim p).data then Matcher.glob (toItems (jsTrim p).data)
          else Matcher.raw (jsTrim p)) = Matcher.glob (toItems (jsTrim p).data)
    rw [if_neg hne, if_pos h]
  refine ⟨h1, fun path => ?_, rfl⟩
  rw [h1]
  show gSearch (toItems (jsTrim p).data) path.data = true ↔ _
  exact gSearch_toItems_iff ((jsTrim p).data).length _ _ (Nat.le_refl _)

theorem c2_glob_semantics_witness :
    ('*' ∈ (jsTrim "src/*.js").data) ∧
      mtest falseOracle (patternToRegExp (JVal.str "src/*.js")) "src/a/b.js" = true :=
  ⟨by decide, (c2_glob_semantics falseOracle "src/*.js" (by decide)).2.2⟩

/- ================ LEMMAS: debouncer bursts (C1) ================ -/

theorem onEvent_initState (d r t : Nat) :
    onEvent d r t initState = ⟨[(0, t + d)], [], some 0, 1, [], [], 1⟩ := by
  simp [onEvent, advance, initState]

theorem onEvent_burst (d r n t t' : Nat) (hlt : t' < t + d) :
    onEvent d r t' ⟨[(n, t + d)], [], some n, n + 1, [], [], 1⟩
      = ⟨[(n + 1, t' + d)], [], some (n + 1), n + 2, [], [], 1⟩ := by
  have hn : ¬ (t + d ≤ t') := by omega
  simp [onEvent, advance, hn, hlt]

theorem foldl_burst (d r : Nat) :
    ∀ (events : List Nat) (t n : Nat),
      List.Chain' (fun a b => a < b ∧ b < a + d) (t :: events) →
      events.foldl (fun s x => onEvent d r x s) ⟨[(n, t + d)], [], some n, n + 1, [], [], 1⟩
        = ⟨[(n + events.length, events.getLastD t + d)], [], some (n + events.length),
           n + events.length + 1, [], [], 1⟩ := by
  intro events
  induction events with
  | nil => intro t n _; simp
  | cons e tl ih =>
    intro t n hch
    rcases List.chain'_cons.mp hch with ⟨hte, htl⟩
    rw [List.foldl_cons, onEvent_burst d r n t e hte.2, ih e (n + 1) htl,
      List.getLastD_cons]
    simp only [DebState.mk.injEq, List.cons.injEq, Prod.mk.injEq, List.length_cons,
      Option.some.injEq, and_true, true_and]
    omega

theorem flush_burst (d r T m : Nat) :
    flush r ⟨[(m, T + d)], [], some m, m + 1, [], [], 1⟩
      = ⟨[], [], none, m + 1, [T + d], [T + d + r], 1⟩ := by
  rcases Nat.eq_zero_or_pos r with hr | hr
  · subst hr
    simp [flush]
  · have h0 : ¬ r = 0 := by omega
    simp [flush, hr, h0]

/-- C1: starting from the idle debouncer, a burst of N ≥ 1 accepted change
events whose consecutive gaps are all smaller than the debounce delay d
produces exactly one debounce firing, at exactly d milliseconds after the
last event of the burst (so with the sliding-window re-arms, never d after
the first event), and exactly one restart execution, at that firing plus the
restart delay. -/
theorem c1_debounce_coalescing (d r : Nat) (events : List Nat)
    (hne : events ≠ [])
    (hburst : List.Chain' (fun a b => a < b ∧ b < a + d) events) :
    (runEvents d r events).debFired = [events.getLastD 0 + d] ∧
    (runEvents d r events).fired = [events.getLastD 0 + d + r] := by
  cases events with
  | nil => exact absurd rfl hne
  | cons e tl =>
    unfold runEvents
    rw [List.foldl_cons, onEvent_initState]
    have hfold := foldl_burst d r tl e 0 hburst
    simp only [Nat.zero_add] at hfold
    rw [hfold, flush_burst, List.getLastD_cons]
    exact ⟨rfl, rfl⟩

theorem c1_debounce_coalescing_witness :
    (([0, 50] : List Nat) ≠ [] ∧
      List.Chain' (fun a b => a < b ∧ b < a + 200) [0, 50]) ∧
    (runEvents 200 0 [0, 50]).debFired = [([0, 50] : List Nat).getLastD 0 + 200] ∧
    (runEvents 200 0 [0, 50]).fired = [([0, 50] : List Nat).getLastD 0 + 200 + 0] := by
  have hch : List.Chain' (fun a b => a < b ∧ b < a + 200) [0, 50] := by
    refine List.chain'_cons.mpr ⟨⟨by omega, by omega⟩, ?_⟩
    exact List.chain'_singleton 50
  exact ⟨⟨by decide, hch⟩, c1_debounce_coalescing 200 0 [0, 50] (by decide) hch⟩

/- ================ LEMMAS: the inner restart delay (C6) ================ -/

theorem advance_armed (r t : Nat) (s : DebState) :
    (advance r t s).armed = s.armed.filter (fun p => t < p.2) := rfl

theorem advance_debFired (r t : Nat) (s : DebState) :
    (advance r t s).debFired
      = s.debFired ++ (s.armed.filter (fun p => p.2 ≤ t)).map (fun p => p.2) := rfl

theorem advance_restarts (r t : Nat) (s : DebState) :
    (advance r t s).restarts
      = (if 0 < r then
           s.restarts ++ (s.armed.filter (fun p => p.2 ≤ t)).map (fun p => p.2 + r)
         else s.restarts).filter (fun x => t < x) := rfl

theorem advance_fired (r t : Nat) (s : DebState) :
    (advance r t s).fired
      = (if 0 < r then s.fired
         else s.fired ++ (s.armed.filter (fun p => p.2 ≤ t)).map (fun p => p.2))
        ++ (if 0 < r then
              s.restarts ++ (s.armed.filter (fun p => p.2 ≤ t)).map (fun p => p.2 + r)
            else s.restarts).filter (fun x => x ≤ t) := rfl

theorem onEvent_restarts (d r t : Nat) (s : DebState) :
    (onEvent d r t s).restarts = (advance r t s).restarts := rfl

theorem onEvent_fired (d r t : Nat) (s : DebState) :
    (onEvent d r t s).fired = (advance r t s).fired := rfl

theorem onEvent_debFired (d r t : Nat) (s : DebState) :
    (onEvent d r t s).debFired = (advance r t s).debFired := rfl

theorem onEvent_armed (d r t : Nat) (s : DebState) :
    (onEvent d r t s).armed
      = (match (advance r t s).handle with
         | some id => (advance r t s).armed.filter (fun p => p.1 ≠ id)
         | none => (advance r t s).armed) ++ [((advance r t s).nextId, t + d)] := rfl

theorem flush_fired_eq (r : Nat) (s : DebState) :
    (flush r s).fired
      = (if 0 < r then s.fired else s.fired ++ s.armed.map (fun p => p.2))
        ++ (if 0 < r then s.restarts ++ s.armed.map (fun p => p.2 + r) else s.restarts) := rfl

theorem flush_debFired_eq (r : Nat) (s : DebState) :
    (flush r s).debFired = s.debFired ++ s.armed.map (fun p => p.2) := rfl

theorem flush_restarts_eq (r : Nat) (s : DebState) :
    (flush r s).restarts = [] := rfl

theorem map_add_zero (l : List Nat) : l.map (fun x => x + 0) = l := by simp

theorem pairwise_filter_split_nat (t : Nat) :
    ∀ l : List Nat, l.Pairwise (· ≤ ·) →
      l.filter (fun x => x ≤ t) ++ l.filter (fun x => t < x) = l := by
  intro l
  induction l with
  | nil => intro _; rfl
  | cons a tl ih =>
    intro hp
    rcases List.pairwise_cons.mp hp with ⟨hall, htl⟩
    by_cases h : a ≤ t
    · rw [List.filter_cons_of_pos (by simpa using h),
        List.filter_cons_of_neg (by simpa using Nat.not_lt.mpr h)]
      rw [List.cons_append, ih htl]
    · have h' : t < a := Nat.not_le.mp h
      rw [List.filter_cons_of_neg (by simpa using h),
        List.filter_cons_of_pos (by simpa using h')]
      have h1 : tl.filter (fun b => b ≤ t) = [] := by
        rw [List.filter_eq_nil_iff]
        intro b hb
        simp only [decide_eq_true_eq]
        have := hall b hb
        omega
      have h2 : tl.filter (fun b => t < b) = tl := by
        rw [List.filter_eq_self]
        intro b hb
        simp only [decide_eq_true_eq]
        have := hall b hb
        omega
      rw [h1, h2]
      rfl

/-- The run-time invariant of the debouncer state at instant tNow:
executed restarts followed by the still-pending ones are exactly the
debounce firings shifted by the restart delay; pending restarts and armed
timers are deadline-sorted; pending restarts stem from firings that already
happened; armed timers are not yet due but were armed with the full delay d
no later than tNow; and with no restart delay nothing is ever pending. -/
structure DebInv (d r tNow : Nat) (s : DebState) : Prop where
  acc : s.fired ++ s.restarts = s.debFired.map (fun x => x + r)
  rSorted : s.restarts.Pairwise (· ≤ ·)
  aSorted : s.armed.Pairwise (fun p q => p.2 ≤ q.2)
  rBound : ∀ x ∈ s.restarts, x ≤ tNow + r
  aLow : ∀ p ∈ s.armed, tNow ≤ p.2
  aHigh : ∀ p ∈ s.armed, p.2 ≤ tNow + d
  rEmpty : r = 0 → s.restarts = []

theorem advance_inv (d r t0 t : Nat) (s : DebState) (hinv : DebInv d r t0 s)
    (ht : t0 ≤ t) : DebInv d r t (advance r t s) := by
  obtain ⟨acc, rS, aS, rB, aL, aH, rE⟩ := hinv
  have hdueSub : ∀ p ∈ s.armed.filter (fun p => p.2 ≤ t), p ∈ s.armed ∧ p.2 ≤ t := by
    intro p hp
    rcases List.mem_filter.mp hp with ⟨h1, h2⟩
    exact ⟨h1, by simpa using h2⟩
  have hremSub : ∀ p ∈ s.armed.filter (fun p => t < p.2), p ∈ s.armed ∧ t < p.2 := by
    intro p hp
    rcases List.mem_filter.mp hp with ⟨h1, h2⟩
    exact ⟨h1, by simpa using h2⟩
  rcases Nat.eq_zero_or_pos r with hr | hr
  · -- no restart delay: the inner timer list is always empty
    subst hr
    have hre := rE rfl
    have hif : ¬ (0 : Nat) < 0 := by omega
    constructor
    · rw [advance_fired, advance_restarts, advance_debFired, if_neg hif, if_neg hif, hre]
      simp only [List.filter_nil, List.append_nil]
      have hself : s.fired = s.debFired.map (fun x => x + 0) := by
        simpa [hre] using acc
      rw [List.map_append, ← hself, map_add_zero]
    · rw [advance_restarts, if_neg hif, hre]
      exact List.Pairwise.nil
    · rw [advance_armed]
      exact aS.sublist (List.filter_sublist s.armed)
    · rw [advance_restarts, if_neg hif, hre]
      intro x hx
      cases hx
    · rw [advance_armed]
      intro p hp
      exact Nat.le_of_lt (hremSub p hp).2
    · rw [advance_armed]
      intro p hp
      have := aH p (hremSub p hp).1
      omega
    · intro _
      rw [advance_restarts, if_neg hif, hre]
      rfl
  · -- positive restart delay: firings push uncancellable inner timers
    have hr0 : ¬ r = 0 := by omega
    have hpairDue : (s.armed.filter (fun p => p.2 ≤ t)).Pairwise (fun p q => p.2 ≤ q.2) :=
      aS.sublist (List.filter_sublist s.armed)
    have hR1 : (s.restarts
        ++ (s.armed.filter (fun p => p.2 ≤ t)).map (fun p => p.2 + r)).Pairwise (· ≤ ·) := by
      rw [List.pairwise_append]
      refine ⟨rS, ?_, ?_⟩
      · rw [List.pairwise_map]
        exact hpairDue.imp (fun hpq => by omega)
      · intro x hx y hy
        rcases List.mem_map.mp hy with ⟨p, hp, rfl⟩
        have h1 := rB x hx
        have h2 := aL p (hdueSub p hp).1
        omega
    have hsplit := pairwise_filter_split_nat t _ hR1
    have hmemR1 : ∀ x ∈ s.restarts
        ++ (s.armed.filter (fun p => p.2 ≤ t)).map (fun p => p.2 + r), x ≤ t + r := by
      intro x hx
      rcases List.mem_append.mp hx with hx | hx
      · have := rB x hx; omega
      · rcases List.mem_map.mp hx with ⟨p, hp, rfl⟩
        have := (hdueSub p hp).2
        omega
    constructor
    · rw [advance_fired, advance_restarts, advance_debFired, if_pos hr, if_pos hr]
      rw [List.append_assoc, hsplit, ← List.append_assoc, acc]
      rw [List.map_append, List.map_map]
      rfl
    · rw [advance_restarts, if_pos hr]
      exact hR1.sublist (List.filter_sublist _)
    · rw [advance_armed]
      exact aS.sublist (List.filter_sublist s.armed)
    · rw [advance_restarts, if_pos hr]
      intro x hx
      rcases List.mem_filter.mp hx with ⟨h1, _⟩
      exact hmemR1 x h1
    · rw [advance_armed]
      intro p hp
      exact Nat.le_of_lt (hremSub p hp).2
    · rw [advance_armed]
      intro p hp
      have := aH p (hremSub p hp).1
      omega
    · intro h
      exact absurd h hr0

theorem onEvent_inv (d r t0 t : Nat) (s : DebState) (hinv : DebInv d r t0 s)
    (ht : t0 ≤ t) : DebInv d r t (onEvent d r t s) := by
  obtain ⟨acc, rS, aS, rB, aL, aH, rE⟩ := advance_inv d r t0 t s hinv ht
  have harmedSub : ∀ p ∈ ((match (advance r t s).handle with
      | some id => (advance r t s).armed.filter (fun q => q.1 ≠ id)
      | none => (advance r t s).armed : List (Nat × Nat))),
      p ∈ (advance r t s).armed := by
    intro p hp
    rcases hh : (advance r t s).handle with _ | id <;> rw [hh] at hp
    · exact hp
    · exact (List.mem_filter.mp hp).1
  have harmedPair : ((match (advance r t s).handle with
      | some id => (advance r t s).armed.filter (fun q => q.1 ≠ id)
      | none => (advance r t s).armed : List (Nat × Nat))).Pairwise
        (fun p q => p.2 ≤ q.2) := by
    rcases hh : (advance r t s).handle with _ | id
    · exact aS
    · exact aS.sublist (List.filter_sublist _)
  constructor
  · rw [onEvent_fired, onEvent_restarts, onEvent_debFired]
    exact acc
  · rw [onEvent_restarts]
    exact rS
  · rw [onEvent_armed, List.pairwise_append]
    refine ⟨harmedPair, List.pairwise_singleton _ _, ?_⟩
    intro p hp q hq
    rcases List.mem_singleton.mp hq with rfl
    exact aH p (harmedSub p hp)
  · rw [onEvent_restarts]
    exact rB
  · rw [onEvent_armed]
    intro p hp
    rcases List.mem_append.mp hp with hp | hp
    · exact aL p (harmedSub p hp)
    · rcases List.mem_singleton.mp hp with rfl
      exact Nat.le_add_right t d
  · rw [onEvent_armed]
    intro p hp
    rcases List.mem_append.mp hp with hp | hp
    · exact aH p (harmedSub p hp)
    · rcases List.mem_singleton.mp hp with rfl
      exact Nat.le_refl (t + d)
  · rw [onEvent_restarts]
    exact rE

theorem foldl_inv (d r : Nat) :
    ∀ (events : List Nat) (t0 : Nat) (s : DebState),
      DebInv d r t0 s → (∀ x ∈ events, t0 ≤ x) → events.Pairwise (· ≤ ·) →
      DebInv d r (events.getLastD t0) (events.foldl (fun st x => onEvent d r x st) s) := by
  intro events
  induction events with
  | nil => intro t0 s h _ _; exact h
  | cons e tl ih =>
    intro t0 s h hall hp
    rw [List.foldl_cons, List.getLastD_cons]
    rcases List.pairwise_cons.mp hp with ⟨hhead, htl⟩
    exact ih e (onEvent d r e s)
      (onEvent_inv d r t0 e s h (hall e (List.mem_cons_self e tl))) hhead htl

theorem flush_acc (d r tN : Nat) (s : DebState) (hinv : DebInv d r tN s) :
    (flush r s).fired = (flush r s).debFired.map (fun x => x + r) := by
  obtain ⟨acc, _, _, _, _, _, rE⟩ := hinv
  rcases Nat.eq_zero_or_pos r with hr | hr
  · subst hr
    have hre := rE rfl
    have hif : ¬ (0 : Nat) < 0 := by omega
    rw [flush_fired_eq, flush_debFired_eq, if_neg hif, if_neg hif, hre, List.append_nil]
    have hself : s.fired = s.debFired.map (fun x => x + 0) := by
      simpa [hre] using acc
    rw [List.map_append, ← hself, map_add_zero]
  · rw [flush_fired_eq, flush_debFired_eq, if_pos hr, if_pos hr]
    rw [← List.append_assoc, acc, List.map_append, List.map_map]
    rfl

/-- C6: over any chronologically ordered run with a positive restart delay r,
the executed restart actions are exactly the debounce firings shifted by r:
every firing of the debounce timer leads to exactly one restart execution,
exactly r milliseconds later, and accepted change events landing inside that
extra window (which start a fresh debounce cycle) neither cancel, postpone
nor duplicate it — the code never stores the inner timer's handle, so nothing
can clear it. -/
theorem c6_restart_extra_delay (d r : Nat) (events : List Nat) (hr : 0 < r)
    (hmono : List.Chain' (· ≤ ·) events) :
    (runEvents d r events).fired
      = (runEvents d r events).debFired.map (fun f => f + r) := by
  unfold runEvents
  cases events with
  | nil =>
    rw [List.foldl_nil, flush_fired_eq, flush_debFired_eq, if_pos hr, if_pos hr]
    simp [initState]
  | cons e tl =>
    have hinit : DebInv d r e initState := by
      constructor <;> simp [initState]
    have hpw : (e :: tl).Pairwise (· ≤ ·) := List.chain'_iff_pairwise.mp hmono
    have hall : ∀ x ∈ e :: tl, e ≤ x := by
      intro x hx
      rcases List.mem_cons.mp hx with rfl | hx
      · exact Nat.le_refl _
      · exact (List.pairwise_cons.mp hpw).1 x hx
    exact flush_acc d r _ _ (foldl_inv d r (e :: tl) e initState hinit hall hpw)

theorem c6_restart_extra_delay_witness :
    (0 < 500 ∧ List.Chain' (· ≤ ·) ([0, 150] : List Nat)) ∧
    (runEvents 100 500 [0, 150]).fired
      = (runEvents 100 500 [0, 150]).debFired.map (fun f => f + 500) := by
  have hch : List.Chain' (· ≤ ·) ([0, 150] : List Nat) :=
    List.chain'_cons.mpr ⟨by omega, List.chain'_singleton 150⟩
  exact ⟨⟨by omega, hch⟩, c6_restart_extra_delay 100 500 [0, 150] (by omega) hch⟩

/- ================ C3: config merging ================ -/

/-- C3 counterexample: a document whose debounceDelay has the wrong type (a
boolean) passes through the spread merge verbatim — the built
EffectiveConfig keeps the malformed value instead of replacing it with the
default 225, refuting the claim that malformed values are replaced with
defaults. -/
theorem c3_counterexample :
    (buildEffectiveConfig (JVal.obj [("debounceDelay", JVal.bool true)])).debounceDelay
        = JVal.bool true
    ∧ (buildEffectiveConfig (JVal.obj [("debounceDelay", JVal.bool true)])).debounceDelay
        ≠ JVal.num 225 :=
  ⟨rfl, fun h => JVal.noConfusion h⟩

/-- C3 (amended): buildEffectiveConfig always fills every field — nothing is
left undefined — and a field absent from the document takes the default (a
non-object document yields all defaults); but a field present in the document
is copied verbatim, with no validation.  The numeric delays are sanitized
only at their point of use in createProjectWatcher, where any value that is
not a nonnegative number falls back to the default. -/
theorem c3_merge_semantics :
    (∀ fs : List (String × JVal),
      ((jlookup fs "watch" = none →
          (buildEffectiveConfig (JVal.obj fs)).watch = DEFAULT_CONFIG.watch) ∧
        ∀ v, jlookup fs "watch" = some v → (buildEffectiveConfig (JVal.obj fs)).watch = v) ∧
      ((jlookup fs "ignore" = none →
          (buildEffectiveConfig (JVal.obj fs)).ignore = DEFAULT_CONFIG.ignore) ∧
        ∀ v, jlookup fs "ignore" = some v → (buildEffectiveConfig (JVal.obj fs)).ignore = v) ∧
      ((jlookup fs "debounceDelay" = none →
          (buildEffectiveConfig (JVal.obj fs)).debounceDelay = DEFAULT_CONFIG.debounceDelay) ∧
        ∀ v, jlookup fs "debounceDelay" = some v →
          (buildEffectiveConfig (JVal.obj fs)).debounceDelay = v) ∧
      ((jlookup fs "restartDelay" = none →
          (buildEffectiveConfig (JVal.obj fs)).restartDelay = DEFAULT_CONFIG.restartDelay) ∧
        ∀ v, jlookup fs "restartDelay" = some v →
          (buildEffectiveConfig (JVal.obj fs)).restartDelay = v) ∧
      ((jlookup fs "logLabel" = none →
          (buildEffectiveConfig (JVal.obj fs)).logLabel = DEFAULT_CONFIG.logLabel) ∧
        ∀ v, jlookup fs "logLabel" = some v →
          (buildEffectiveConfig (JVal.obj fs)).logLabel = v) ∧
      ((jlookup fs "logTimestamp" = none →
          (buildEffectiveConfig (JVal.obj fs)).logTimestamp = DEFAULT_CONFIG.logTimestamp) ∧
        ∀ v, jlookup fs "logTimestamp" = some v →
          (buildEffectiveConfig (JVal.obj fs)).logTimestamp = v) ∧
      ((jlookup fs "silentLogs" = none →
          (buildEffectiveConfig (JVal.obj fs)).silentLogs = DEFAULT_CONFIG.silentLogs) ∧
        ∀ v, jlookup fs "silentLogs" = some v →
          (buildEffectiveConfig (JVal.obj fs)).silentLogs = v) ∧
      ((jlookup fs "saveLogs" = none →
          (buildEffectiveConfig (JVal.obj fs)).saveLogs = DEFAULT_CONFIG.saveLogs) ∧
        ∀ v, jlookup fs "saveLogs" = some v →
          (buildEffectiveConfig (JVal.obj fs)).saveLogs = v)) ∧
    (∀ raw : JVal, (∀ fs, raw ≠ JVal.obj fs) → buildEffectiveConfig raw = DEFAULT_CONFIG) ∧
    (∀ cfg : EffConfig,
      0 ≤ effDebounceMs cfg ∧ 0 ≤ effRestartMs cfg ∧
      (∀ n : Int, cfg.debounceDelay = JVal.num n → 0 ≤ n → effDebounceMs cfg = n) ∧
      (∀ n : Int, cfg.restartDelay = JVal.num n → 0 ≤ n → effRestartMs cfg = n)) := by
  refine ⟨fun fs => ?_, fun raw hraw => ?_, fun cfg => ?_⟩
  · refine ⟨⟨fun h => ?_, fun v h => ?_⟩, ⟨fun h => ?_, fun v h => ?_⟩,
      ⟨fun h => ?_, fun v h => ?_⟩, ⟨fun h => ?_, fun v h => ?_⟩,
      ⟨fun h => ?_, fun v h => ?_⟩, ⟨fun h => ?_, fun v h => ?_⟩,
      ⟨fun h => ?_, fun v h => ?_⟩, ⟨fun h => ?_, fun v h => ?_⟩⟩ <;>
    simp [buildEffectiveConfig, mergeFields, h]
  · cases raw with
    | obj fs => exact absurd rfl (hraw fs)
    | null => rfl
    | bool b => rfl
    | num n => rfl
    | str s => rfl
    | arr xs => rfl
  · refine ⟨?_, ?_, fun n h hn => ?_, fun n h hn => ?_⟩
    · rcases hd : cfg.debounceDelay <;> simp [effDebounceMs, hd]
      split <;> omega
    · rcases hd : cfg.restartDelay <;> simp [effRestartMs, hd]
      split <;> omega
    · simp [effDebounceMs, h, hn]
    · simp [effRestartMs, h, hn]

theorem c3_merge_semantics_witness :
    (buildEffectiveConfig (JVal.obj [("watch", JVal.str "src")])).watch = JVal.str "src" ∧
    (buildEffectiveConfig (JVal.obj [("watch", JVal.str "src")])).debounceDelay
      = DEFAULT_CONFIG.debounceDelay :=
  ⟨(c3_merge_semantics.1 [("watch", JVal.str "src")]).1.2 (JVal.str "src") rfl,
   ((c3_merge_semantics.1 [("watch", JVal.str "src")]).2.2.1).1 rfl⟩

/- ================ C4 / C5: config reload ================ -/

/-- A sample logger and controller state for concrete witnesses. -/
def sampleLogger : LoggerState := ⟨true, false, false, none⟩

def sampleCtl : WatchCtl := ⟨⟨DEFAULT_CONFIG, none⟩, none, sampleLogger, 0, 0⟩

/-- C4: when the debounced config-change timer fires and the persisted
configuration is absent, unreadable or invalid JSON (loadConfig yields null),
the handler logs one warning and returns: the effective configuration —
every field, including the derived logFile — the silent override, the
logger state and the reload count are left exactly as they were.  The
handler is a total function: nothing escapes it and no part of the broken
document is merged. -/
theorem c4_failed_reload_keeps_config (cwd root : String) (src : LoadSrc)
    (s : WatchCtl) (h : src = none ∨ src = some none) :
    (onConfigFire cwd root src s).effectiveConfig = s.effectiveConfig ∧
    (onConfigFire cwd root src s).silentOverride = s.silentOverride ∧
    (onConfigFire cwd root src s).logger = s.logger ∧
    (onConfigFire cwd root src s).reloads = s.reloads ∧
    (onConfigFire cwd root src s).warns = s.warns + 1 := by
  rcases h with rfl | rfl <;> exact ⟨rfl, rfl, rfl, rfl, rfl⟩

theorem c4_failed_reload_keeps_config_witness :
    (onConfigFire "/w" "/p" none sampleCtl).effectiveConfig = sampleCtl.effectiveConfig ∧
    (onConfigFire "/w" "/p" none sampleCtl).warns = sampleCtl.warns + 1 :=
  ⟨(c4_failed_reload_keeps_config "/w" "/p" none sampleCtl (Or.inl rfl)).1,
   (c4_failed_reload_keeps_config "/w" "/p" none sampleCtl (Or.inl rfl)).2.2.2.2⟩

theorem onConfigFire_keeps_override (cwd root : String) (src : LoadSrc)
    (s : WatchCtl) (b : Bool) (hov : s.silentOverride = some b)
    (hsl : s.effectiveConfig.base.silentLogs = JVal.bool b) :
    (onConfigFire cwd root src s).silentOverride = some b ∧
    (onConfigFire cwd root src s).effectiveConfig.base.silentLogs = JVal.bool b := by
  rcases src with _ | osrc
  · exact ⟨hov, hsl⟩
  · rcases osrc with _ | v
    · exact ⟨hov, hsl⟩
    · by_cases hf : v.isFalsy
      · refine ⟨?_, ?_⟩ <;> simp [onConfigFire, loadConfigM, hf, hov, hsl]
      · refine ⟨?_, ?_⟩ <;> simp [onConfigFire, loadConfigM, hf, hov]

theorem silentCommand_consistent (cwd : String) (arg : Option String) (s : WatchCtl)
    (hcons : ∀ b0, s.silentOverride = some b0 →
      s.effectiveConfig.base.silentLogs = JVal.bool b0)
    (b : Bool) (hset : (silentCommand cwd arg s).silentOverride = some b) :
    (silentCommand cwd arg s).effectiveConfig.base.silentLogs = JVal.bool b := by
  unfold silentCommand at hset ⊢
  by_cases h1 : arg = some "on"
  · rw [if_pos h1] at hset ⊢
    by_cases h2 : s.effectiveConfig.base.silentLogs.isTruthy = true
    · rw [if_pos h2] at hset ⊢
      exact hcons b hset
    · rw [if_neg h2] at hset ⊢
      have hb : true = b := Option.some.inj hset
      show JVal.bool true = JVal.bool b
      rw [← hb]
  · rw [if_neg h1] at hset ⊢
    by_cases h3 : arg = some "off"
    · rw [if_pos h3] at hset ⊢
      by_cases h2 : s.effectiveConfig.base.silentLogs.isTruthy = true
      · rw [if_pos h2] at hset ⊢
        have hb : false = b := Option.some.inj hset
        show JVal.bool false = JVal.bool b
        rw [← hb]
      · rw [if_neg h2] at hset ⊢
        exact hcons b hset
    · rw [if_neg h3] at hset ⊢
      have hb : s.effectiveConfig.base.silentLogs.isFalsy = b := Option.some.inj hset
      show JVal.bool s.effectiveConfig.base.silentLogs.isFalsy = JVal.bool b
      rw [hb]

/-- C5: once the silent command has installed a manual override b (every
override-installing branch of the command also forces the effective
silentLogs to the same boolean), any sequence of config-timer firings — with
any mix of missing, unreadable and successfully parsed documents, whatever
silentLogs value those documents persist — leaves the override in place and
leaves every rebuilt effective configuration's silentLogs equal to the
override, until the process exits. -/
theorem c5_override_survives_reloads (cwd root : String) (s0 : WatchCtl)
    (arg : Option String) (srcs : List LoadSrc) (b : Bool)
    (hcons : ∀ b0, s0.silentOverride = some b0 →
      s0.effectiveConfig.base.silentLogs = JVal.bool b0)
    (hset : (silentCommand cwd arg s0).silentOverride = some b) :
    (srcs.foldl (fun st src => onConfigFire cwd root src st)
        (silentCommand cwd arg s0)).silentOverride = some b ∧
    (srcs.foldl (fun st src => onConfigFire cwd root src st)
        (silentCommand cwd arg s0)).effectiveConfig.base.silentLogs = JVal.bool b := by
  have hbase : (silentCommand cwd arg s0).effectiveConfig.base.silentLogs = JVal.bool b :=
    silentCommand_consistent cwd arg s0 hcons b hset
  suffices h : ∀ (l : List LoadSrc) (st : WatchCtl), st.silentOverride = some b →
      st.effectiveConfig.base.silentLogs = JVal.bool b →
      (l.foldl (fun sx src => onConfigFire cwd root src sx) st).silentOverride = some b ∧
      (l.foldl (fun sx src => onConfigFire cwd root src sx) st).effectiveConfig.base.silentLogs
        = JVal.bool b by
    exact h srcs _ hset hbase
  intro l
  induction l with
  | nil => intro st h1 h2; exact ⟨h1, h2⟩
  | cons x xs ih =>
    intro st h1 h2
    rw [List.foldl_cons]
    obtain ⟨h1', h2'⟩ := onConfigFire_keeps_override cwd root x st b h1 h2
    exact ih (onConfigFire cwd root x st) h1' h2'

theorem c5_override_survives_reloads_witness :
    (silentCommand "/w" (some "on") sampleCtl).silentOverride = some true ∧
    (([some (some (JVal.obj [("silentLogs", JVal.bool false)]))] : List LoadSrc).foldl
        (fun st src => onConfigFire "/w" "/p" src st)
        (silentCommand "/w" (some "on") sampleCtl)).effectiveConfig.base.silentLogs
      = JVal.bool true :=
  ⟨rfl,
   (c5_override_survives_reloads "/w" "/p" sampleCtl (some "on")
      [some (some (JVal.obj [("silentLogs", JVal.bool false)]))] true
      (fun b0 h => Option.noConfusion h) rfl).2⟩

/- ================ C7: ignore/watch filter logic ================ -/

/-- C7: ignoring wins over watching — any ignore-matcher hit rejects the
path outright, whatever the watch list says; when a watch list is present
(the spec is not the sentinel "all"), no watch-matcher hit rejects; the
sentinel "all" compiles to no watch list at all, and then a path is accepted
exactly when no ignore matcher hits. -/
theorem c7_ignore_wins (oracle : String → String → Bool) (ignoreCfg watchCfg : JVal)
    (rel : String) :
    ((mkIgnoreRegexes ignoreCfg).any (fun m => mtest oracle m rel) = true →
      passesFilters oracle (mkIgnoreRegexes ignoreCfg) (mkWatchRegexes watchCfg) rel = false)
    ∧ (∀ ws, mkWatchRegexes watchCfg = some ws →
        ws.any (fun m => mtest oracle m rel) = false →
        passesFilters oracle (mkIgnoreRegexes ignoreCfg) (mkWatchRegexes watchCfg) rel = false)
    ∧ (mkWatchRegexes watchCfg = none →
        (passesFilters oracle (mkIgnoreRegexes ignoreCfg) (mkWatchRegexes watchCfg) rel = true
          ↔ (mkIgnoreRegexes ignoreCfg).any (fun m => mtest oracle m rel) = false))
    ∧ (isStrAll watchCfg = true ↔ mkWatchRegexes watchCfg = none) := by
  refine ⟨fun hig => ?_, fun ws hws hnone => ?_, fun hall => ?_, ?_⟩
  · unfold passesFilters
    rw [if_pos hig]
  · unfold passesFilters
    rw [hws]
    by_cases hig : (mkIgnoreRegexes ignoreCfg).any (fun m => mtest oracle m rel) = true
    · rw [if_pos hig]
    · rw [if_neg hig]
      exact hnone
  · unfold passesFilters
    rw [hall]
    by_cases hig : (mkIgnoreRegexes ignoreCfg).any (fun m => mtest oracle m rel) = true
    · rw [if_pos hig]
      simp [hig]
    · rw [if_neg hig]
      simp [hig]
  · by_cases hs : isStrAll watchCfg = true
    · simp [mkWatchRegexes, hs]
    · simp only [mkWatchRegexes, hs, if_false, Bool.false_eq_true, false_iff]
      cases watchCfg <;> simp

theorem c7_ignore_wins_witness :
    (mkIgnoreRegexes (JVal.arr [JVal.str "dist*"])).any
        (fun m => mtest falseOracle m "src/dist.js") = true ∧
    (∃ ws, mkWatchRegexes (JVal.str "src*") = some ws ∧
      ws.any (fun m => mtest falseOracle m "src/dist.js") = true) ∧
    passesFilters falseOracle (mkIgnoreRegexes (JVal.arr [JVal.str "dist*"]))
      (mkWatchRegexes (JVal.str "src*")) "src/dist.js" = false :=
  ⟨by decide, ⟨[patternToRegExp (JVal.str "src*")], rfl, by decide⟩,
   (c7_ignore_wins falseOracle (JVal.arr [JVal.str "dist*"]) (JVal.str "src*")
      "src/dist.js").1 (by decide)⟩

/- ================ C8: the event pipeline ================ -/

/-- C8 counterexample: with the default configuration, an accepted addDir
event for the path "src" does feed the restart debouncer (a timer gets
armed) while the ChangeRecord stays empty — refuting the claim that no
accepted event of a kind other than add/change/remove feeds the debouncer. -/
theorem c8_counterexample :
    passesFilters simpleRegexOracle (mkIgnoreRegexes DEFAULT_CONFIG.ignore)
        (mkWatchRegexes DEFAULT_CONFIG.watch) "src" = true ∧
    (handleFsEvent simpleRegexOracle (mkIgnoreRegexes DEFAULT_CONFIG.ignore)
        (mkWatchRegexes DEFAULT_CONFIG.watch) 225 0 EvKind.addDir "src" 0
        ⟨initState, none⟩).deb.armed ≠ [] ∧
    (handleFsEvent simpleRegexOracle (mkIgnoreRegexes DEFAULT_CONFIG.ignore)
        (mkWatchRegexes DEFAULT_CONFIG.watch) 225 0 EvKind.addDir "src" 0
        ⟨initState, none⟩).lastChange = none :=
  ⟨by decide, by decide, by decide⟩

/-- C8 (amended): for every raw event the handler normalizes the path to
forward slashes, drops the event when the relative path is empty or when the
ignore-then-watch filters reject it (leaving the whole state, ChangeRecord
included, untouched — the record is never cleared); on acceptance it feeds
the restart debouncer whatever the event kind is, and it overwrites the
single ChangeRecord exactly when the kind is add/change/unlink. -/
theorem c8_event_pipeline (oracle : String → String → Bool) (ign : List Matcher)
    (wat : Option (List Matcher)) (d r : Nat) (k : EvKind) (rawRel : String)
    (t : Nat) (s : PWState) :
    (toForwardSlashes rawRel = "" →
      handleFsEvent oracle ign wat d r k rawRel t s = s)
    ∧ (toForwardSlashes rawRel ≠ "" →
        passesFilters oracle ign wat (toForwardSlashes rawRel) = false →
        handleFsEvent oracle ign wat d r k rawRel t s = s)
    ∧ (toForwardSlashes rawRel ≠ "" →
        passesFilters oracle ign wat (toForwardSlashes rawRel) = true →
        (k = EvKind.add ∨ k = EvKind.change ∨ k = EvKind.unlink) →
        (handleFsEvent oracle ign wat d r k rawRel t s).lastChange
            = some (toForwardSlashes rawRel, k, t)
          ∧ (handleFsEvent oracle ign wat d r k rawRel t s).deb = onEvent d r t s.deb)
    ∧ (toForwardSlashes rawRel ≠ "" →
        passesFilters oracle ign wat (toForwardSlashes rawRel) = true →
        (k = EvKind.addDir ∨ k = EvKind.unlinkDir) →
        (handleFsEvent oracle ign wat d r k rawRel t s).lastChange = s.lastChange
          ∧ (handleFsEvent oracle ign wat d r k rawRel t s).deb = onEvent d r t s.deb) := by
  refine ⟨fun h0 => ?_, fun h0 hpf => ?_, fun h0 hpf hk => ?_, fun h0 hpf hk => ?_⟩
  · unfold handleFsEvent
    rw [if_pos h0]
  · simp [handleFsEvent, h0, hpf]
  · rcases hk with rfl | rfl | rfl <;> simp [handleFsEvent, h0, hpf]
  · rcases hk with rfl | rfl <;> simp [handleFsEvent, h0, hpf]

theorem c8_event_pipeline_witness :
    (toForwardSlashes "src\\app.js" ≠ "" ∧
      passesFilters simpleRegexOracle (mkIgnoreRegexes DEFAULT_CONFIG.ignore)
        (mkWatchRegexes DEFAULT_CONFIG.watch) (toForwardSlashes "src\\app.js") = true) ∧
    (handleFsEvent simpleRegexOracle (mkIgnoreRegexes DEFAULT_CONFIG.ignore)
        (mkWatchRegexes DEFAULT_CONFIG.watch) 225 0 EvKind.change "src\\app.js" 5
        ⟨initState, none⟩).lastChange
      = some (toForwardSlashes "src\\app.js", EvKind.change, 5) ∧
    (handleFsEvent simpleRegexOracle (mkIgnoreRegexes DEFAULT_CONFIG.ignore)
        (mkWatchRegexes DEFAULT_CONFIG.watch) 225 0 EvKind.change "src\\app.js" 5
        ⟨initState, none⟩).deb = onEvent 225 0 5 initState :=
  ⟨⟨by decide, by decide⟩,
   ((c8_event_pipeline simpleRegexOracle (mkIgnoreRegexes DEFAULT_CONFIG.ignore)
      (mkWatchRegexes DEFAULT_CONFIG.watch) 225 0 EvKind.change "src\\app.js" 5
      ⟨initState, none⟩).2.2.1 (by decide) (by decide) (Or.inr (Or.inl rfl))).1,
   ((c8_event_pipeline simpleRegexOracle (mkIgnoreRegexes DEFAULT_CONFIG.ignore)
      (mkWatchRegexes DEFAULT_CONFIG.watch) 225 0 EvKind.change "src\\app.js" 5
      ⟨initState, none⟩).2.2.1 (by decide) (by decide) (Or.inr (Or.inl rfl))).2⟩

/- ================ C9: unrecognized runtime commands ================ -/

/-- The commands the runtime console recognizes, as the claim enumerates
them: the exact keywords plus "silent" with an optional on/off argument. -/
def recognizedCmds : List String :=
  ["clear", "cls", "help", "h", "?", "status", "stats", "last-change", "lc",
   "rs", "stop", "x", "silent", "silent on", "silent off"]

/-- C9 counterexample: "silentx" is a non-empty line that is not one of the
recognized commands, yet the handler emits no unrecognized-command error
notice: because the lowercased line starts with "silent" it is consumed by
the silent branch (a toggle with no argument). -/
theorem c9_counterexample :
    jsTrim "silentx" ≠ "" ∧
    jsToLower (jsTrim "silentx") ∉ recognizedCmds ∧
    handleLine "silentx" = ConsoleAction.silent none ∧
    handleLine "silentx" ≠ ConsoleAction.unknown "silentx" :=
  ⟨by decide, by decide, by decide, by decide⟩

/-- C9 (amended): every non-empty trimmed input line whose lowercased form is
neither a recognized command nor a line starting with "silent" resolves to
exactly one unrecognized-command error notice, which names the trimmed line,
and the action is not stop — the command loop continues.  (Lines merely
starting with "silent", such as "silentx", are instead consumed by the
silent command.) -/
theorem c9_unknown_command (input : String)
    (h1 : jsTrim input ≠ "")
    (h2 : jsToLower (jsTrim input) ∉ recognizedCmds)
    (h3 : ¬ strStarts (jsToLower (jsTrim input)).data "silent".data = true) :
    handleLine input = ConsoleAction.unknown (jsTrim input) ∧
    handleLine input ≠ ConsoleAction.stop := by
  have hc : ∀ c ∈ recognizedCmds, jsToLower (jsTrim input) ≠ c := by
    intro c hcm he
    exact h2 (he ▸ hcm)
  have k1 : ¬ (jsToLower (jsTrim input) = "clear" ∨ jsToLower (jsTrim input) = "cls") := by
    rintro (h | h)
    · exact hc "clear" (by decide) h
    · exact hc "cls" (by decide) h
  have k2 : ¬ (jsToLower (jsTrim input) = "help" ∨ jsToLower (jsTrim input) = "h"
      ∨ jsToLower (jsTrim input) = "?") := by
    rintro (h | h | h)
    · exact hc "help" (by decide) h
    · exact hc "h" (by decide) h
    · exact hc "?" (by decide) h
  have k3 : ¬ (jsToLower (jsTrim input) = "status" ∨ jsToLower (jsTrim input) = "stats") := by
    rintro (h | h)
    · exact hc "status" (by decide) h
    · exact hc "stats" (by decide) h
  have k4 : ¬ (jsToLower (jsTrim input) = "last-change"
      ∨ jsToLower (jsTrim input) = "lc") := by
    rintro (h | h)
    · exact hc "last-change" (by decide) h
    · exact hc "lc" (by decide) h
  have k6 : ¬ jsToLower (jsTrim input) = "rs" := hc "rs" (by decide)
  have k7 : ¬ (jsToLower (jsTrim input) = "stop" ∨ jsToLower (jsTrim input) = "x") := by
    rintro (h | h)
    · exact hc "stop" (by decide) h
    · exact hc "x" (by decide) h
  unfold handleLine
  rw [if_neg h1, if_neg k1, if_neg k2, if_neg k3, if_neg k4, if_neg h3, if_neg k6, if_neg k7]
  exact ⟨rfl, fun h => ConsoleAction.noConfusion h⟩

theorem c9_unknown_command_witness :
    handleLine "foo" = ConsoleAction.unknown (jsTrim "foo") ∧
    handleLine "foo" ≠ ConsoleAction.stop :=
  c9_unknown_command "foo" (by decide) (by decide) (by decide)

/- ================ C10: the file log mirror ================ -/

/-- C10: with a log file path set, every error/warn/info/success call appends
its ANSI-stripped, always-timestamped and always-labelled line to the file,
whatever the silent flag is; silent mode suppresses only the console printing
of info/success while error and warn always print; and with silent mode on
the separator produces no output at all — neither console nor file. -/
theorem c10_file_logging (st : LoggerState) (p ts msg : String)
    (hfile : st.logFilePath = some p) :
    (∀ lv : LogLevel, (logEmit st lv ts msg).file
        = [String.mk (stripAnsi (formatForFile ts (labelOf lv) msg).data) ++ "\n"])
    ∧ (∀ lv : LogLevel, ((logEmit st lv ts msg).console ≠ [] ↔
        (st.silentLogs = false ∨ lv = LogLevel.error ∨ lv = LogLevel.warn)))
    ∧ (st.silentLogs = true → separatorEmit st = ⟨[], []⟩) := by
  refine ⟨fun lv => ?_, fun lv => ?_, fun hs => ?_⟩
  · unfold logEmit
    split <;> simp [writeToFile, hfile]
  · cases hsil : st.silentLogs <;>
      cases lv <;> simp [logEmit, shouldPrint, labelOf, hsil]
  · simp [separatorEmit, shouldPrint, hs]

theorem c10_file_logging_witness :
    ((⟨true, false, true, some "/f"⟩ : LoggerState).logFilePath = some "/f") ∧
    (logEmit ⟨true, false, true, some "/f"⟩ LogLevel.info "12:00:00" "hello").file
      = [String.mk (stripAnsi
          (formatForFile "12:00:00" (labelOf LogLevel.info) "hello").data) ++ "\n"] ∧
    separatorEmit ⟨true, false, true, some "/f"⟩ = ⟨[], []⟩ :=
  ⟨rfl,
   (c10_file_logging ⟨true, false, true, some "/f"⟩ "/f" "12:00:00" "hello" rfl).1
     LogLevel.info,
   (c10_file_logging ⟨true, false, true, some "/f"⟩ "/f" "12:00:00" "hello" rfl).2.2 rfl⟩
